import Mathlib

/-!
Verification development for the core of the `dns-server` repository
(Rust).  The definitions below are a shallow embedding of
`src/core-module/src/buffer/buffer.rs`,
`src/core-module/src/protocols/protocol.rs`,
`src/core-module/src/cache/memory_cache.rs` and
`src/core-module/src/resolvers/recursive_resolver.rs`.

Modelling conventions:
* Rust machine integers are modelled as `Nat`, with explicit `% 2^w`
  (or `&&& mask`) exactly where the source performs an `as uN` cast or
  an operation that can wrap.
* Rust `String`/`&str` values are modelled as `List Char`.
* A fallible Rust call returns `RustOutcome`: `ok`, `err` (a returned
  `Err(BufferError)` value), or `panic` (an uncatchable Rust panic such
  as an out-of-bounds slice index).
* Loops that are not structurally recursive are given explicit fuel;
  the outcome `none` means the loop has not finished within the given
  number of iterations (so `∀ fuel, … = none` expresses divergence).
* `char::is_alphanumeric` and `char::to_lowercase` are modelled on the
  ASCII range (the Unicode tables are out of scope; every claim settled
  here only exercises ASCII data).
-/

/-- Rust `char::to_lowercase`, restricted to its ASCII behaviour:
uppercase ASCII letters map to lowercase, everything else is kept. -/
def rustToLower (c : Char) : Char :=
  if 'A' ≤ c ∧ c ≤ 'Z' then Char.ofNat (c.toNat + 32) else c

/-- Rust `char::is_alphanumeric`, restricted to its ASCII behaviour. -/
def rustIsAlphanumeric (c : Char) : Bool :=
  ('a' ≤ c && c ≤ 'z') || ('A' ≤ c && c ≤ 'Z') || ('0' ≤ c && c ≤ '9')

/-- UTF-8 encoding of one scalar value (`str::as_bytes` on one char). -/
def charUtf8 (c : Char) : List Nat :=
  let n := c.toNat
  if n < 0x80 then [n]
  else if n < 0x800 then
    [0xC0 ||| (n >>> 6), 0x80 ||| (n &&& 0x3F)]
  else if n < 0x10000 then
    [0xE0 ||| (n >>> 12), 0x80 ||| ((n >>> 6) &&& 0x3F), 0x80 ||| (n &&& 0x3F)]
  else
    [0xF0 ||| (n >>> 18), 0x80 ||| ((n >>> 12) &&& 0x3F),
     0x80 ||| ((n >>> 6) &&& 0x3F), 0x80 ||| (n &&& 0x3F)]

/-- UTF-8 bytes of a Rust string (`str::as_bytes`). -/
def strUtf8 (s : List Char) : List Nat :=
  s.flatMap charUtf8

/-- Unicode replacement character, emitted by lossy UTF-8 decoding. -/
def replacementChar : Char := Char.ofNat 0xFFFD

/-- Is `b` a UTF-8 continuation byte `10xxxxxx`? -/
def isCont (b : Nat) : Bool := 0x80 ≤ b && b < 0xC0

/-- Body of `fromUtf8Lossy`.  The `Nat` argument is structural fuel;
every step consumes at least one byte, so fuel equal to the byte count
(as supplied by `fromUtf8Lossy`) never runs out. -/
def fromUtf8LossyGo : Nat → List Nat → List Char
  | 0, _ => []
  | _, [] => []
  | fuel + 1, b1 :: rest =>
    if b1 < 0x80 then Char.ofNat b1 :: fromUtf8LossyGo fuel rest
    else if b1 < 0xC2 then
      -- stray continuation byte or overlong two-byte lead (0xC0/0xC1)
      replacementChar :: fromUtf8LossyGo fuel rest
    else if b1 < 0xE0 then
      match rest with
      | b2 :: rest2 =>
        if isCont b2 then
          Char.ofNat ((b1 - 0xC0) * 64 + (b2 - 0x80)) :: fromUtf8LossyGo fuel rest2
        else replacementChar :: fromUtf8LossyGo fuel rest
      | [] => [replacementChar]
    else if b1 < 0xF0 then
      match rest with
      | b2 :: rest2 =>
        if (if b1 = 0xE0 then 0xA0 ≤ b2 && b2 ≤ 0xBF
            else if b1 = 0xED then 0x80 ≤ b2 && b2 ≤ 0x9F
            else isCont b2) then
          match rest2 with
          | b3 :: rest3 =>
            if isCont b3 then
              Char.ofNat ((b1 - 0xE0) * 4096 + (b2 - 0x80) * 64 + (b3 - 0x80))
                :: fromUtf8LossyGo fuel rest3
            else replacementChar :: fromUtf8LossyGo fuel rest2
          | [] => [replacementChar]
        else replacementChar :: fromUtf8LossyGo fuel rest
      | [] => [replacementChar]
    else if b1 < 0xF5 then
      match rest with
      | b2 :: rest2 =>
        if (if b1 = 0xF0 then 0x90 ≤ b2 && b2 ≤ 0xBF
            else if b1 = 0xF4 then 0x80 ≤ b2 && b2 ≤ 0x8F
            else isCont b2) then
          match rest2 with
          | b3 :: rest3 =>
            if isCont b3 then
              match rest3 with
              | b4 :: rest4 =>
                if isCont b4 then
                  Char.ofNat ((b1 - 0xF0) * 262144 + (b2 - 0x80) * 4096 +
                      (b3 - 0x80) * 64 + (b4 - 0x80)) :: fromUtf8LossyGo fuel rest4
                else replacementChar :: fromUtf8LossyGo fuel rest3
              | [] => [replacementChar]
            else replacementChar :: fromUtf8LossyGo fuel rest2
          | [] => [replacementChar]
        else replacementChar :: fromUtf8LossyGo fuel rest
      | [] => [replacementChar]
    else replacementChar :: fromUtf8LossyGo fuel rest

/-- `String::from_utf8_lossy`: decode UTF-8, substituting U+FFFD for
each maximal invalid subpart (W3C substitution, as Rust does). -/
def fromUtf8Lossy (l : List Nat) : List Char :=
  fromUtf8LossyGo l.length l

/-- Rust `str::split('.')`: split on every dot, keeping empty pieces. -/
def splitDot : List Char → List (List Char)
  | [] => [[]]
  | c :: rest =>
    if c = '.' then [] :: splitDot rest
    else
      match splitDot rest with
      | l :: ls => (c :: l) :: ls
      | [] => [[c]]

/-- Rust `[&str]::join(".")`. -/
def joinDot : List (List Char) → List Char
  | [] => []
  | [l] => l
  | l :: rest => l ++ '.' :: joinDot rest

/-- The error type `BufferError` of `buffer.rs` (payloads dropped). -/
inductive BufferError where
  | Io
  | EndOfBuffer
  | InvalidCharacterInLabel
  | InvalidCompressionPointer
  | InvalidUtf8
  deriving Repr, DecidableEq

/-- Outcome of a Rust call: a returned value, a returned `Err`, or an
uncatchable panic (e.g. an out-of-bounds index). -/
inductive RustOutcome (α : Type) where
  | ok (val : α)
  | err (e : BufferError)
  | panic
  deriving Repr, DecidableEq

def RustOutcome.bind {α β : Type} : RustOutcome α → (α → RustOutcome β) → RustOutcome β
  | .ok a, f => f a
  | .err e, _ => .err e
  | .panic, _ => .panic

instance : Monad RustOutcome where
  pure := RustOutcome.ok
  bind := RustOutcome.bind

/-- `usize::MAX` (64-bit target). -/
def usizeMax : Nat := 2 ^ 64 - 1

/-- The `PacketBuffer` trait of `buffer.rs` (primitive operations; the
defaulted methods are defined generically below).  `get`, `get_range`
and `find_label` take `&mut self` in the source, but neither of the two
modelled implementations mutates in them, so they are pure here. -/
class PacketBuffer (β : Type) where
  read : β → RustOutcome (Nat × β)
  get : β → Nat → RustOutcome Nat
  get_range : β → Nat → Nat → RustOutcome (List Nat)
  write : β → Nat → RustOutcome β
  set : β → Nat → Nat → RustOutcome β
  pos : β → Nat
  seek : β → Nat → RustOutcome β
  step : β → Nat → RustOutcome β
  find_label : β → List Char → Option Nat
  save_label : β → List Char → Nat → β

namespace PacketBuffer

variable {β : Type} [PacketBuffer β]

/-- `read_u16` default method. -/
def read_u16 (b : β) : RustOutcome (Nat × β) := do
  let (hi, b) ← read b
  let (lo, b) ← read b
  return ((hi <<< 8) ||| lo, b)

/-- `read_u32` default method. -/
def read_u32 (b : β) : RustOutcome (Nat × β) := do
  let (b1, b) ← read b
  let (b2, b) ← read b
  let (b3, b) ← read b
  let (b4, b) ← read b
  return ((b1 <<< 24) ||| (b2 <<< 16) ||| (b3 <<< 8) ||| b4, b)

/-- `write_u8` default method. -/
def write_u8 (b : β) (val : Nat) : RustOutcome β := write b val

/-- `set_u16` default method (`val` is a `u16`; the casts `as u8` keep
the low eight bits). -/
def set_u16 (b : β) (p val : Nat) : RustOutcome β := do
  let b ← set b p ((val >>> 8) &&& 0xFF)
  set b (p + 1) (val &&& 0xFF)

/-- `write_all` default method. -/
def write_all (b : β) (bytes : List Nat) : RustOutcome β :=
  match bytes with
  | [] => .ok b
  | x :: rest => do
    let b ← write b x
    write_all b rest

/-- `write_u16` default method. -/
def write_u16 (b : β) (val : Nat) : RustOutcome β := do
  let b ← write b ((val >>> 8) &&& 0xFF)
  write b (val &&& 0xFF)

/-- `write_u32` default method. -/
def write_u32 (b : β) (val : Nat) : RustOutcome β := do
  let b ← write b ((val >>> 24) &&& 0xFF)
  let b ← write b ((val >>> 16) &&& 0xFF)
  let b ← write b ((val >>> 8) &&& 0xFF)
  write b (val &&& 0xFF)

/-- Loop body of `write_qname`: iterate over the labels; on a
`find_label` hit emit a pointer and stop (no trailing zero); when the
labels are exhausted without a jump emit the zero length byte. -/
def writeQnameGo : β → List (List Char) → RustOutcome β
  | b, [] => write_u8 b 0
  | b, label :: rest =>
    if label.all (fun c => rustIsAlphanumeric c || c = '-') then
      let remaining := joinDot (label :: rest)
      match find_label b remaining with
      | some p =>
        -- `(pos as u16) | 0xC000`, then the loop breaks with `jumped`
        write_u16 b ((p % 65536) ||| 0xC000)
      | none => do
        let b := save_label b remaining (pos b)
        let b ← write_u8 b ((strUtf8 label).length % 256)
        let b ← write_all b (strUtf8 label)
        writeQnameGo b rest
    else .err .InvalidCharacterInLabel

/-- `write_qname` default method. -/
def write_qname (b : β) (qname : List Char) : RustOutcome β :=
  if qname = [] then write_u8 b 0
  else writeQnameGo b (splitDot qname)

/-- `is_compression_pointer` default method. -/
def is_compression_pointer (len : Nat) : Bool := 0 < len &&& 0xC0

/-- `calculate_offset` default method: a failing `get` of the second
pointer byte yields `usize::MAX` (the source swallows the `Err`). -/
def calculate_offset (b : β) (p len : Nat) : RustOutcome Nat :=
  match get b (p + 1) with
  | .ok b2 => .ok (((len ^^^ 0xC0) <<< 8) ||| b2)
  | .err _ => .ok usizeMax
  | .panic => .panic

/-- Loop body of `read_qname`, with explicit fuel; `none` means the
loop has not terminated within `fuel` iterations.  The state is the
decode position `p`, the `jumped` flag, the pending delimiter and the
output string. -/
def readQnameGo : Nat → β → Nat → Bool → List Char → List Char →
    Option (RustOutcome (β × List Char))
  | 0, _, _, _, _, _ => none
  | fuel + 1, b, p, jumped, delim, out =>
    match get b p with
    | .err e => some (.err e)
    | .panic => some .panic
    | .ok len =>
      if is_compression_pointer len then
        match (if jumped then .ok b else seek b (p + 2) : RustOutcome β) with
        | .err e => some (.err e)
        | .panic => some .panic
        | .ok b =>
          match calculate_offset b p len with
          | .err e => some (.err e)
          | .panic => some .panic
          | .ok offset => readQnameGo fuel b offset true delim out
      else
        let p := p + 1
        if len = 0 then
          if jumped then some (.ok (b, out))
          else
            match seek b p with
            | .err e => some (.err e)
            | .panic => some .panic
            | .ok b => some (.ok (b, out))
        else
          match get_range b p len with
          | .err e => some (.err e)
          | .panic => some .panic
          | .ok bytes =>
            let out := out ++ delim ++ (fromUtf8Lossy bytes).map rustToLower
            readQnameGo fuel b (p + len) jumped ['.'] out

/-- `read_qname` default method (fuel-indexed; appends to `outstr`). -/
def read_qname (b : β) (outstr : List Char) (fuel : Nat) :
    Option (RustOutcome (β × List Char)) :=
  readQnameGo fuel b (pos b) false [] outstr

end PacketBuffer

/-- Replace-or-append update of an association list, modelling
`BTreeMap::insert` keyed by the label string. -/
def labelMapInsert : List (List Char × Nat) → List Char → Nat → List (List Char × Nat)
  | [], k, v => [(k, v)]
  | (k', v') :: rest, k, v =>
    if k' = k then (k, v) :: rest else (k', v') :: labelMapInsert rest k v

/-- `VectorPacketBuffer` of `buffer.rs`: growable byte vector, cursor,
and the label map used for name compression. -/
structure VectorPacketBuffer where
  buffer : List Nat
  pos : Nat
  label_lookup : List (List Char × Nat)
  deriving Repr, DecidableEq

/-- `VectorPacketBuffer::new`. -/
def VectorPacketBuffer.new : VectorPacketBuffer :=
  { buffer := [], pos := 0, label_lookup := [] }

instance : PacketBuffer VectorPacketBuffer where
  find_label b label := b.label_lookup.lookup label
  save_label b label p := { b with label_lookup := labelMapInsert b.label_lookup label p }
  read b :=
    -- `self.buffer[self.pos]` panics when the index is out of bounds
    match b.buffer[b.pos]? with
    | some v => .ok (v, { b with pos := b.pos + 1 })
    | none => .panic
  get b p :=
    match b.buffer[p]? with
    | some v => .ok v
    | none => .panic
  get_range b start len :=
    if b.buffer.length < start + len then .err .EndOfBuffer
    else .ok ((b.buffer.drop start).take len)
  write b val := .ok { b with buffer := b.buffer ++ [val], pos := b.pos + 1 }
  set b p val :=
    if p < b.buffer.length then .ok { b with buffer := b.buffer.set p val }
    else .panic
  pos b := b.pos
  seek b p := .ok { b with pos := p }
  step b steps := .ok { b with pos := b.pos + steps }

/-- `BytePacketBuffer` of `buffer.rs`: fixed 512-byte array plus a
cursor.  The array is a `List Nat` that always has length 512. -/
structure BytePacketBuffer where
  buf : List Nat
  pos : Nat
  deriving Repr, DecidableEq

/-- `BytePacketBuffer::new`. -/
def BytePacketBuffer.new : BytePacketBuffer :=
  { buf := List.replicate 512 0, pos := 0 }

instance : PacketBuffer BytePacketBuffer where
  find_label _ _ := none
  save_label b _ _ := b
  read b :=
    if b.pos ≥ 512 then .err .EndOfBuffer
    else .ok (b.buf.getD b.pos 0, { b with pos := b.pos + 1 })
  get b p :=
    if p ≥ 512 then .err .EndOfBuffer
    else .ok (b.buf.getD p 0)
  get_range b start len :=
    if start + len ≥ 512 then .err .EndOfBuffer
    else .ok ((b.buf.drop start).take len)
  write b val :=
    if b.pos ≥ 512 then .err .EndOfBuffer
    else .ok { b with buf := b.buf.set b.pos val, pos := b.pos + 1 }
  set b p val :=
    -- `self.buf[pos] = val` has no bounds check: out of range panics
    if p < 512 then .ok { b with buf := b.buf.set p val }
    else .panic
  pos b := b.pos
  seek b p := .ok { b with pos := p }
  step b steps := .ok { b with pos := b.pos + steps }

/-! ## `protocol.rs`: query types, records, header, question, packet -/

/-- `QueryType` of `protocol.rs`. -/
inductive QueryType where
  | UNKNOWN (code : Nat)
  | A
  | NS
  | CNAME
  | SOA
  | MX
  | TXT
  | AAAA
  | SRV
  | OPT
  deriving Repr, DecidableEq

/-- `QueryType::to_num`. -/
def QueryType.to_num : QueryType → Nat
  | .UNKNOWN x => x
  | .A => 1
  | .NS => 2
  | .CNAME => 5
  | .SOA => 6
  | .MX => 15
  | .TXT => 16
  | .AAAA => 28
  | .SRV => 33
  | .OPT => 41

/-- `QueryType::from_num`. -/
def QueryType.from_num (num : Nat) : QueryType :=
  if num = 1 then .A
  else if num = 2 then .NS
  else if num = 5 then .CNAME
  else if num = 6 then .SOA
  else if num = 15 then .MX
  else if num = 16 then .TXT
  else if num = 28 then .AAAA
  else if num = 33 then .SRV
  else if num = 41 then .OPT
  else .UNKNOWN num

/-- `std::net::Ipv4Addr`: four octets. -/
structure Ipv4Addr where
  o1 : Nat
  o2 : Nat
  o3 : Nat
  o4 : Nat
  deriving Repr, DecidableEq

/-- `Ipv4Addr::octets`. -/
def Ipv4Addr.octets (ip : Ipv4Addr) : List Nat := [ip.o1, ip.o2, ip.o3, ip.o4]

/-- `Ipv4Addr::to_string`: dotted decimal. -/
def Ipv4Addr.toText (ip : Ipv4Addr) : List Char :=
  (Nat.repr ip.o1).data ++ '.' :: (Nat.repr ip.o2).data ++ '.' ::
    (Nat.repr ip.o3).data ++ '.' :: (Nat.repr ip.o4).data

/-- `std::net::Ipv6Addr`: eight 16-bit segments. -/
structure Ipv6Addr where
  s1 : Nat
  s2 : Nat
  s3 : Nat
  s4 : Nat
  s5 : Nat
  s6 : Nat
  s7 : Nat
  s8 : Nat
  deriving Repr, DecidableEq

/-- `Ipv6Addr::segments`. -/
def Ipv6Addr.segments (ip : Ipv6Addr) : List Nat :=
  [ip.s1, ip.s2, ip.s3, ip.s4, ip.s5, ip.s6, ip.s7, ip.s8]

/-- `DnsRecord` of `protocol.rs`.  The `TransientTtl` wrapper is
flattened to its `u32` payload; its bespoke always-equal `PartialEq` /
empty `Hash` are captured by `DnsRecord.recordEq` below. -/
inductive DnsRecord where
  | UNKNOWN (domain : List Char) (qtype : Nat) (data_len : Nat) (ttl : Nat)
  | A (domain : List Char) (addr : Ipv4Addr) (ttl : Nat)
  | NS (domain : List Char) (host : List Char) (ttl : Nat)
  | CNAME (domain : List Char) (host : List Char) (ttl : Nat)
  | SOA (domain : List Char) (m_name : List Char) (r_name : List Char)
      (serial : Nat) (refresh : Nat) (retry : Nat) (expire : Nat)
      (minimum : Nat) (ttl : Nat)
  | MX (domain : List Char) (priority : Nat) (host : List Char) (ttl : Nat)
  | TXT (domain : List Char) (data : List Char) (ttl : Nat)
  | AAAA (domain : List Char) (addr : Ipv6Addr) (ttl : Nat)
  | SRV (domain : List Char) (priority : Nat) (weight : Nat) (port : Nat)
      (host : List Char) (ttl : Nat)
  | OPT (packet_len : Nat) (flags : Nat) (data : List Char)
  deriving Repr, DecidableEq

/-- The derived `PartialEq` of `DnsRecord`, with the `ttl` field
compared through `TransientTtl::eq`, which always returns `true`. -/
def DnsRecord.recordEq : DnsRecord → DnsRecord → Bool
  | .UNKNOWN d q dl _, .UNKNOWN d' q' dl' _ => d == d' && q == q' && dl == dl'
  | .A d a _, .A d' a' _ => d == d' && a == a'
  | .NS d h _, .NS d' h' _ => d == d' && h == h'
  | .CNAME d h _, .CNAME d' h' _ => d == d' && h == h'
  | .SOA d m r s rf rt e mi _, .SOA d' m' r' s' rf' rt' e' mi' _ =>
    d == d' && m == m' && r == r' && s == s' && rf == rf' && rt == rt' &&
      e == e' && mi == mi'
  | .MX d p h _, .MX d' p' h' _ => d == d' && p == p' && h == h'
  | .TXT d dt _, .TXT d' dt' _ => d == d' && dt == dt'
  | .AAAA d a _, .AAAA d' a' _ => d == d' && a == a'
  | .SRV d p w po h _, .SRV d' p' w' po' h' _ =>
    d == d' && p == p' && w == w' && po == po' && h == h'
  | .OPT pl f dt, .OPT pl' f' dt' => pl == pl' && f == f' && dt == dt'
  | _, _ => false

/-- `DnsRecord::get_querytype`. -/
def DnsRecord.get_querytype : DnsRecord → QueryType
  | .A .. => .A
  | .AAAA .. => .AAAA
  | .NS .. => .NS
  | .CNAME .. => .CNAME
  | .SRV .. => .SRV
  | .MX .. => .MX
  | .SOA .. => .SOA
  | .TXT .. => .TXT
  | .OPT .. => .OPT
  | .UNKNOWN _ q _ _ => .UNKNOWN q

/-- `DnsRecord::get_domain`. -/
def DnsRecord.get_domain : DnsRecord → Option (List Char)
  | .A d _ _ => some d
  | .AAAA d _ _ => some d
  | .NS d _ _ => some d
  | .CNAME d _ _ => some d
  | .SRV d _ _ _ _ _ => some d
  | .MX d _ _ _ => some d
  | .UNKNOWN d _ _ _ => some d
  | .SOA d _ _ _ _ _ _ _ _ => some d
  | .TXT d _ _ => some d
  | .OPT .. => none

/-- `DnsRecord::get_ttl`. -/
def DnsRecord.get_ttl : DnsRecord → Nat
  | .A _ _ t => t
  | .AAAA _ _ t => t
  | .NS _ _ t => t
  | .CNAME _ _ t => t
  | .SRV _ _ _ _ _ t => t
  | .MX _ _ _ t => t
  | .UNKNOWN _ _ _ t => t
  | .SOA _ _ _ _ _ _ _ _ t => t
  | .TXT _ _ t => t
  | .OPT .. => 0

open PacketBuffer in
/-- The `write_common` helper nested in `DnsRecord::write`. -/
def writeCommon {β : Type} [PacketBuffer β] (b : β) (domain : List Char)
    (query_type : QueryType) (ttl : Nat) : RustOutcome β := do
  let b ← write_qname b domain
  let b ← write_u16 b query_type.to_num
  let b ← write_u16 b 1
  write_u32 b ttl

open PacketBuffer in
/-- `DnsRecord::write`: returns the number of bytes advanced.  `OPT`
writes nothing; `UNKNOWN` is skipped with a diagnostic print. -/
def DnsRecord.write {β : Type} [PacketBuffer β] (rec : DnsRecord) (b : β) :
    RustOutcome (Nat × β) := do
  let start_pos := pos b
  let b ←
    match rec with
    | .A domain addr ttl => do
      let b ← writeCommon b domain .A ttl
      let b ← write_u16 b 4
      write_all b (addr.octets.map (· &&& 0xFF))
    | .AAAA domain addr ttl => do
      let b ← writeCommon b domain .AAAA ttl
      let b ← write_u16 b 16
      (addr.segments.map (· &&& 0xFFFF)).foldlM (fun b seg => write_u16 b seg) b
    | .NS domain host ttl => do
      let b ← writeCommon b domain .NS ttl
      let p := pos b
      let b ← write_u16 b 0
      let b ← write_qname b host
      let size := pos b - (p + 2)
      set_u16 b p (size % 65536)
    | .CNAME domain host ttl => do
      let b ← writeCommon b domain .CNAME ttl
      let p := pos b
      let b ← write_u16 b 0
      let b ← write_qname b host
      let size := pos b - (p + 2)
      set_u16 b p (size % 65536)
    | .SRV domain priority weight port host ttl => do
      let b ← writeCommon b domain .SRV ttl
      let p := pos b
      let b ← write_u16 b 0
      let b ← write_u16 b priority
      let b ← write_u16 b weight
      let b ← write_u16 b port
      let b ← write_qname b host
      let size := pos b - (p + 2)
      set_u16 b p (size % 65536)
    | .MX domain priority host ttl => do
      let b ← writeCommon b domain .MX ttl
      let p := pos b
      let b ← write_u16 b 0
      let b ← write_u16 b priority
      let b ← write_qname b host
      let size := pos b - (p + 2)
      set_u16 b p (size % 65536)
    | .SOA domain m_name r_name serial refresh retry expire minimum ttl => do
      let b ← writeCommon b domain .SOA ttl
      let p := pos b
      let b ← write_u16 b 0
      let b ← write_qname b m_name
      let b ← write_qname b r_name
      let b ← write_u32 b serial
      let b ← write_u32 b refresh
      let b ← write_u32 b retry
      let b ← write_u32 b expire
      let b ← write_u32 b minimum
      let size := pos b - (p + 2)
      set_u16 b p (size % 65536)
    | .TXT domain data ttl => do
      let b ← writeCommon b domain .TXT ttl
      let b ← write_u16 b ((strUtf8 data).length % 65536)
      write_all b (strUtf8 data)
    | .OPT .. => pure b
    | .UNKNOWN .. => pure b
  return (pos b - start_pos, b)

/-- `ResultCode` of `protocol.rs` (`repr(u8)`). -/
inductive ResultCode where
  | NOERROR
  | FORMERR
  | SERVFAIL
  | NXDOMAIN
  | NOTIMP
  | REFUSED
  deriving Repr, DecidableEq

/-- The `rescode as u8` cast (`repr(u8)` discriminants). -/
def ResultCode.toNum : ResultCode → Nat
  | .NOERROR => 0
  | .FORMERR => 1
  | .SERVFAIL => 2
  | .NXDOMAIN => 3
  | .NOTIMP => 4
  | .REFUSED => 5

/-- `ResultCode::from_num`. -/
def ResultCode.from_num (num : Nat) : ResultCode :=
  if num = 1 then .FORMERR
  else if num = 2 then .SERVFAIL
  else if num = 3 then .NXDOMAIN
  else if num = 4 then .NOTIMP
  else if num = 5 then .REFUSED
  else .NOERROR

/-- `DnsHeader` of `protocol.rs`.  The `u16` count fields are `Nat`s
here; every operation that can wrap applies `% 2^16` (the write loop's
count increments wrap as a release-build `+=` does) and serialization
masks each field with `&&& 0xFFFF`. -/
structure DnsHeader where
  id : Nat
  recursion_desired : Bool
  truncated_message : Bool
  authoritative_answer : Bool
  opcode : Nat
  response : Bool
  rescode : ResultCode
  checking_disabled : Bool
  authed_data : Bool
  z : Bool
  recursion_available : Bool
  questions : Nat
  answers : Nat
  authoritative_entries : Nat
  resource_entries : Nat
  deriving Repr, DecidableEq

/-- `DnsHeader::new` (the derived `Default`). -/
def DnsHeader.new : DnsHeader :=
  { id := 0, recursion_desired := false, truncated_message := false,
    authoritative_answer := false, opcode := 0, response := false,
    rescode := .NOERROR, checking_disabled := false, authed_data := false,
    z := false, recursion_available := false, questions := 0, answers := 0,
    authoritative_entries := 0, resource_entries := 0 }

/-- `bool as u8`. -/
def boolBit (b : Bool) : Nat := if b then 1 else 0

open PacketBuffer in
/-- `DnsHeader::write`. -/
def DnsHeader.write {β : Type} [PacketBuffer β] (h : DnsHeader) (b : β) :
    RustOutcome β := do
  let b ← write_u16 b (h.id &&& 0xFFFF)
  let flags1 :=
    (boolBit h.recursion_desired) |||
    ((boolBit h.truncated_message) <<< 1) |||
    ((boolBit h.authoritative_answer) <<< 2) |||
    (((h.opcode &&& 0xFF) <<< 3) &&& 0xFF) |||
    ((boolBit h.response) <<< 7)
  let flags2 :=
    h.rescode.toNum |||
    ((boolBit h.checking_disabled) <<< 4) |||
    ((boolBit h.authed_data) <<< 5) |||
    ((boolBit h.z) <<< 6) |||
    ((boolBit h.recursion_available) <<< 7)
  let b ← write_u8 b flags1
  let b ← write_u8 b flags2
  let b ← write_u16 b (h.questions &&& 0xFFFF)
  let b ← write_u16 b (h.answers &&& 0xFFFF)
  let b ← write_u16 b (h.authoritative_entries &&& 0xFFFF)
  write_u16 b (h.resource_entries &&& 0xFFFF)

/-- `DnsHeader::binary_len`. -/
def DnsHeader.binary_len (_ : DnsHeader) : Nat := 12

/-- `DnsQuestion` of `protocol.rs`. -/
structure DnsQuestion where
  name : List Char
  qtype : QueryType
  deriving Repr, DecidableEq

/-- `DnsQuestion::binary_len`: label byte lengths plus one each, plus
the terminating zero. -/
def DnsQuestion.binary_len (q : DnsQuestion) : Nat :=
  ((splitDot q.name).map (fun l => (strUtf8 l).length + 1)).sum + 1

open PacketBuffer in
/-- `DnsQuestion::write`. -/
def DnsQuestion.write {β : Type} [PacketBuffer β] (q : DnsQuestion) (b : β) :
    RustOutcome β := do
  let b ← write_qname b q.name
  let b ← write_u16 b q.qtype.to_num
  write_u16 b 1

/-- `DnsPacket` of `protocol.rs`. -/
structure DnsPacket where
  header : DnsHeader
  questions : List DnsQuestion
  answers : List DnsRecord
  authorities : List DnsRecord
  resources : List DnsRecord
  deriving Repr, DecidableEq

/-- `DnsPacket::new` (the derived `Default`). -/
def DnsPacket.new : DnsPacket :=
  { header := DnsHeader.new, questions := [], answers := [],
    authorities := [], resources := [] }

/-- `DnsPacket::get_ttl_from_soa`. -/
def DnsPacket.get_ttl_from_soa (p : DnsPacket) : Option Nat :=
  p.authorities.findSome? fun rec =>
    match rec with
    | .SOA _ _ _ _ _ _ _ minimum _ => some minimum
    | _ => none

/-- `DnsPacket::get_random_a`: despite the name, the first A record of
the answers section (`filter_map(..).next()`). -/
def DnsPacket.get_random_a (p : DnsPacket) : Option (List Char) :=
  p.answers.findSome? fun rec =>
    match rec with
    | .A _ addr _ => some addr.toText
    | _ => none

/-- `DnsPacket::get_resolved_ns`: the first NS of the authorities
section whose owner is a suffix of `qname` AND for which the additional
section holds an A record of the NS host; NS entries without such glue
are skipped (`filter_map` drops the `None`s). -/
def DnsPacket.get_resolved_ns (p : DnsPacket) (qname : List Char) :
    Option (List Char) :=
  p.authorities.findSome? fun auth =>
    match auth with
    | .NS domain host _ =>
      if domain.isSuffixOf qname then
        p.resources.findSome? fun resource =>
          match resource with
          | .A domain' addr _ => if domain' == host then some addr.toText else none
          | _ => none
      else none
    | _ => none

/-- `DnsPacket::get_unresolved_ns`: the host of the first NS of the
authorities section whose owner is a suffix of `qname`. -/
def DnsPacket.get_unresolved_ns (p : DnsPacket) (qname : List Char) :
    Option (List Char) :=
  p.authorities.findSome? fun auth =>
    match auth with
    | .NS domain host _ =>
      if domain.isSuffixOf qname then some host else none
    | _ => none

/-- First phase of `DnsPacket::write`: accumulate the questions'
`binary_len`s onto `size` while writing them into the scratch buffer. -/
def questionsPhase : List DnsQuestion → Nat → VectorPacketBuffer →
    RustOutcome (Nat × VectorPacketBuffer)
  | [], size, tb => .ok (size, tb)
  | q :: rest, size, tb =>
    match q.write tb with
    | .ok tb => questionsPhase rest (size + q.binary_len) tb
    | .err e => .err e
    | .panic => .panic

/-- The record loop of `DnsPacket::write`: write each record into the
scratch buffer, stop (setting TC) at the first record that pushes
`size` over `max_size`, and increment the section count chosen by the
record's absolute index.  Returns (size, scratch, header,
record_count). -/
def recordLoop (max_size alen aulen : Nat) :
    List DnsRecord → Nat → Nat → VectorPacketBuffer → DnsHeader → Nat →
    RustOutcome (Nat × VectorPacketBuffer × DnsHeader × Nat)
  | [], size, _, tb, hdr, rc => .ok (size, tb, hdr, rc)
  | rec :: rest, size, i, tb, hdr, rc =>
    match rec.write tb with
    | .err e => .err e
    | .panic => .panic
    | .ok (sz, tb) =>
      let size := size + sz
      if max_size < size then
        .ok (size, tb, { hdr with truncated_message := true }, rc)
      else
        -- the count fields are u16: `+= 1` wraps mod 2^16 in a release
        -- build (a debug build would panic at the same point)
        let hdr :=
          if i < alen then { hdr with answers := (hdr.answers + 1) % 65536 }
          else if i < alen + aulen then
            { hdr with authoritative_entries :=
              (hdr.authoritative_entries + 1) % 65536 }
          else { hdr with resource_entries := (hdr.resource_entries + 1) % 65536 }
        recordLoop max_size alen aulen rest size (i + 1) tb hdr (i + 1)

/-- Emission of the questions into the caller's buffer. -/
def writeQuestionsOut {β : Type} [PacketBuffer β] :
    List DnsQuestion → β → RustOutcome β
  | [], b => .ok b
  | q :: rest, b =>
    match q.write b with
    | .ok b => writeQuestionsOut rest b
    | .err e => .err e
    | .panic => .panic

/-- Emission of the selected records into the caller's buffer. -/
def writeRecordsOut {β : Type} [PacketBuffer β] :
    List DnsRecord → β → RustOutcome β
  | [], b => .ok b
  | rec :: rest, b =>
    match rec.write b with
    | .ok (_, b) => writeRecordsOut rest b
    | .err e => .err e
    | .panic => .panic

/-- `DnsPacket::write` with a size budget: dry-run into a scratch
`VectorPacketBuffer` to decide how many records fit, then emit header,
questions and the fitting prefix of answers ++ authorities ++
additionals.  The mutated packet (header updated in place in Rust) is
returned alongside the buffer. -/
def DnsPacket.write {β : Type} [PacketBuffer β] (p : DnsPacket) (b : β)
    (max_size : Nat) : RustOutcome (β × DnsPacket) := do
  let (size, tb) ← questionsPhase p.questions (p.header.binary_len) VectorPacketBuffer.new
  let chain := p.answers ++ p.authorities ++ p.resources
  let (_, _, hdr, rc) ←
    recordLoop max_size p.answers.length p.authorities.length chain size 0 tb p.header 0
  let hdr := { hdr with questions := p.questions.length % 65536 }
  let b ← hdr.write b
  let b ← writeQuestionsOut p.questions b
  let b ← writeRecordsOut (chain.take rc) b
  return (b, { p with header := hdr })

/-! ## `memory_cache.rs`: TTL-aware record cache

Time is modelled as a `Nat` of seconds; every operation that calls
`Local::now()` in the source takes the current instant `now` as an
explicit argument.  `DashMap`/`BTreeMap` are association lists and
`HashSet<RecordEntry>` is a list holding pairwise non-`recordEq`
entries: `HashSet::insert` adds the entry only when no equal entry is
present, and keeps the stored entry unchanged otherwise (`RecordEntry`
equality/hashing delegates to the record and so ignores both the
timestamp and, through `TransientTtl`, the TTL). -/

/-- `CacheState` of `memory_cache.rs`. -/
inductive CacheState where
  | PositiveCache
  | NegativeCache
  | NotCached
  deriving Repr, DecidableEq

/-- `RecordEntry`: a record plus its insertion instant. -/
structure RecordEntry where
  record : DnsRecord
  timestamp : Nat
  deriving Repr, DecidableEq

/-- `RecordEntry::is_valid`: insertion timestamp plus TTL is still in
the future. -/
def RecordEntry.is_valid (e : RecordEntry) (now : Nat) : Bool :=
  now < e.timestamp + e.record.get_ttl

/-- `RecordSet` of `memory_cache.rs`. -/
inductive RecordSet where
  | NoRecords (qtype : QueryType) (ttl : Nat) (timestamp : Nat)
  | Records (qtype : QueryType) (records : List RecordEntry)
  deriving Repr, DecidableEq

/-- `HashSet::<RecordEntry>::insert`: no-op when an entry equal under
`recordEq` is already present (the stored entry, with its old timestamp
and TTL, is retained); otherwise the entry is added. -/
def hashSetInsert (s : List RecordEntry) (e : RecordEntry) : List RecordEntry :=
  if s.any (fun x => x.record.recordEq e.record) then s else s ++ [e]

/-- `DomainEntry` of `memory_cache.rs` (the `DashMap` keyed by query
type is an association list). -/
structure DomainEntry where
  record_types : List (QueryType × RecordSet)
  hits : Nat
  updates : Nat
  deriving Repr, DecidableEq

/-- `DomainEntry::new`. -/
def DomainEntry.new : DomainEntry :=
  { record_types := [], hits := 0, updates := 0 }

/-- Replace-or-append on the per-domain type map (`DashMap::insert`). -/
def typeMapInsert : List (QueryType × RecordSet) → QueryType → RecordSet →
    List (QueryType × RecordSet)
  | [], qt, rs => [(qt, rs)]
  | (qt', rs') :: rest, qt, rs =>
    if qt' = qt then (qt, rs) :: rest else (qt', rs') :: typeMapInsert rest qt rs

/-- `DomainEntry::store_nxdomain`. -/
def DomainEntry.store_nxdomain (de : DomainEntry) (qtype : QueryType)
    (ttl : Nat) (now : Nat) : DomainEntry :=
  { de with
    updates := de.updates + 1,
    record_types := typeMapInsert de.record_types qtype (.NoRecords qtype ttl now) }

/-- `DomainEntry::store_record`: `entry(..).and_modify(..).or_insert_with(..)`.
The `and_modify` closure only touches a `Records` set, so an existing
`NoRecords` entry is left unchanged. -/
def DomainEntry.store_record (de : DomainEntry) (rec : DnsRecord) (now : Nat) :
    DomainEntry :=
  let entry : RecordEntry := { record := rec, timestamp := now }
  let qt := rec.get_querytype
  { de with
    updates := de.updates + 1,
    record_types :=
      match de.record_types.lookup qt with
      | some (.Records qt' records) =>
        typeMapInsert de.record_types qt (.Records qt' (hashSetInsert records entry))
      | some (.NoRecords ..) => de.record_types
      | none => typeMapInsert de.record_types qt (.Records qt [entry]) }

/-- `DomainEntry::get_cache_state`. -/
def DomainEntry.get_cache_state (de : DomainEntry) (qtype : QueryType)
    (now : Nat) : CacheState :=
  match de.record_types.lookup qtype with
  | some (.Records _ records) =>
    if records.any (fun e => e.is_valid now) then .PositiveCache else .NotCached
  | some (.NoRecords _ ttl timestamp) =>
    if now < timestamp + ttl then .NegativeCache else .NotCached
  | none => .NotCached

/-- `DomainEntry::fill_query_result` (what it appends to the vector). -/
def DomainEntry.fill_query_result (de : DomainEntry) (qtype : QueryType)
    (now : Nat) : List DnsRecord :=
  match de.record_types.lookup qtype with
  | some (.Records _ records) =>
    (records.filter (fun e => e.is_valid now)).map (·.record)
  | _ => []

/-- `Cache` of `memory_cache.rs`: the `BTreeMap` from owner name to
`DomainEntry` as an association list (keys exactly as stored — the
source performs no normalization). -/
structure Cache where
  domain_entries : List (List Char × DomainEntry)
  deriving Repr, DecidableEq

/-- `Cache::new`. -/
def Cache.new : Cache := { domain_entries := [] }

/-- Replace-or-append on the domain map (`BTreeMap` update in place). -/
def domainMapInsert : List (List Char × DomainEntry) → List Char → DomainEntry →
    List (List Char × DomainEntry)
  | [], k, v => [(k, v)]
  | (k', v') :: rest, k, v =>
    if k' = k then (k, v) :: rest else (k', v') :: domainMapInsert rest k v

/-- `Cache::get_or_create_entry` followed by an update of that entry
(the callers mutate through the returned reference). -/
def Cache.updateEntry (c : Cache) (qname : List Char)
    (f : DomainEntry → DomainEntry) : Cache :=
  match c.domain_entries.lookup qname with
  | some de => { domain_entries := domainMapInsert c.domain_entries qname (f de) }
  | none => { domain_entries := domainMapInsert c.domain_entries qname (f DomainEntry.new) }

/-- `Cache::get_cache_state`. -/
def Cache.get_cache_state (c : Cache) (qname : List Char) (qtype : QueryType)
    (now : Nat) : CacheState :=
  match c.domain_entries.lookup qname with
  | some de => de.get_cache_state qtype now
  | none => .NotCached

/-- `Cache::fill_queryresult` (the records it appends; the hit counter
update does not affect the result). -/
def Cache.fill_queryresult (c : Cache) (qname : List Char) (qtype : QueryType)
    (now : Nat) : List DnsRecord :=
  match c.domain_entries.lookup qname with
  | some de => de.fill_query_result qtype now
  | none => []

/-- `Cache::lookup`: positive state synthesizes a packet with the valid
records of the queried type as answers and the valid NS records of the
same owner as authorities; negative state synthesizes an empty
NXDOMAIN packet; otherwise a miss. -/
def Cache.lookup (c : Cache) (qname : List Char) (qtype : QueryType)
    (now : Nat) : Option DnsPacket :=
  match c.get_cache_state qname qtype now with
  | .PositiveCache =>
    some { DnsPacket.new with
      answers := c.fill_queryresult qname qtype now,
      authorities := c.fill_queryresult qname .NS now }
  | .NegativeCache =>
    some { DnsPacket.new with
      header := { DnsHeader.new with rescode := .NXDOMAIN } }
  | .NotCached => none

/-- `Cache::store`: group each record under its owner name, exactly as
spelled by `get_domain` (no lowercasing). -/
def Cache.store (c : Cache) (records : List DnsRecord) (now : Nat) : Cache :=
  records.foldl
    (fun c rec =>
      match rec.get_domain with
      | some domain => c.updateEntry domain (fun de => de.store_record rec now)
      | none => c)
    c

/-- `Cache::store_nxdomain`. -/
def Cache.store_nxdomain (c : Cache) (qname : List Char) (qtype : QueryType)
    (ttl : Nat) (now : Nat) : Cache :=
  c.updateEntry qname (fun de => de.store_nxdomain qtype ttl now)

/-- The entries stored by a cache for one (owner, type) pair, as used
by the validity statements below. -/
def Cache.storedEntries (c : Cache) (qname : List Char) (qtype : QueryType) :
    List RecordEntry :=
  match c.domain_entries.lookup qname with
  | some de =>
    match de.record_types.lookup qtype with
    | some (.Records _ records) => records
    | _ => []
  | none => []

/-! ## `recursive_resolver.rs`: the `perform` query loop

The loop of `RecursiveDnsResolver::perform` (lines 64–117) is embedded
with explicit fuel.  The network client is abstracted by a pure
function `send` from the queried nameserver address to the decoded
response (a failed transaction would surface as `ResolveError`; the
counterexample below only needs successful responses), and the
recursive `resolve` call for a glueless NS is abstracted by an oracle
`resolveA`.  The cache stores of the loop body are threaded through the
`Cache` model at a fixed instant `now`. -/

/-- Result of one `perform` invocation (error payloads collapsed). -/
inductive PerformResult where
  | ok (response : DnsPacket) (cache : Cache)
  | errClient
  | errResolve
  deriving Repr

/-- The query loop of `RecursiveDnsResolver::perform`, fuel-indexed:
`none` means the loop has not returned within `fuel` iterations. -/
def performLoop (send : List Char → DnsPacket)
    (resolveA : List Char → Option DnsPacket)
    (qname : List Char) (qtype : QueryType) (now : Nat) :
    Nat → List Char → Cache → Option PerformResult
  | 0, _, _ => none
  | fuel + 1, ns, cache =>
    let response := send ns
    if response.answers ≠ [] ∧ response.header.rescode = .NOERROR then
      let cache := ((cache.store response.answers now).store
        response.authorities now).store response.resources now
      some (.ok response cache)
    else if response.header.rescode = .NXDOMAIN then
      match response.get_ttl_from_soa with
      | some ttl => some (.ok response (cache.store_nxdomain qname qtype ttl now))
      | none => some (.ok response cache)
    else
      match response.get_resolved_ns qname with
      | some new_ns =>
        let cache := ((cache.store response.answers now).store
          response.authorities now).store response.resources now
        performLoop send resolveA qname qtype now fuel new_ns cache
      | none =>
        match response.get_unresolved_ns qname with
        | none => some (.ok response cache)
        | some new_ns_name =>
          match resolveA new_ns_name with
          | none => some .errResolve
          | some recursive_response =>
            match recursive_response.get_random_a with
            | some new_ns => performLoop send resolveA qname qtype now fuel new_ns cache
            | none => some (.ok response cache)

/-! ## Scenario data and specification-side functions

Everything below is input data for the theorems (concrete packets,
buffers, records) or a specification-side characterization that the
theorems compare against the embedded code. -/

/-- A two-byte message whose single compression pointer points at
itself (offset 0): `0xC0 0x00` at position 0. -/
def cyclicPointerBuffer : VectorPacketBuffer :=
  { buffer := [0xC0, 0x00], pos := 0, label_lookup := [] }

/-- The state reached after the first iteration of the decode loop on
`cyclicPointerBuffer`: the caller-visible cursor was moved past the
pointer and `jumped` is set; the decode position is back at 0. -/
def cyclicPointerBufferJumped : VectorPacketBuffer :=
  { buffer := [0xC0, 0x00], pos := 2, label_lookup := [] }

/-- Length of the naive (uncompressed) wire form of a name: each label
with its length prefix, plus the terminating zero. -/
def uncompressedNameLen (name : List Char) : Nat :=
  ((splitDot name).map (fun l => (strUtf8 l).length + 1)).sum + 1

open PacketBuffer in
/-- Write `n1` then `n2` into one fresh growable buffer, then decode
two names from position 0; returns (length after first write, final
length, first decoded name, second decoded name). -/
def twoNamesScenario (n1 n2 : List Char) : Option (Nat × Nat × List Char × List Char) :=
  match write_qname VectorPacketBuffer.new n1 with
  | .ok b1 =>
    match write_qname b1 n2 with
    | .ok b2 =>
      match read_qname { b2 with pos := 0 } [] 100 with
      | some (.ok (b3, s1)) =>
        match read_qname b3 [] 100 with
        | some (.ok (_, s2)) => some (b1.buffer.length, b2.buffer.length, s1, s2)
        | _ => none
      | _ => none
    | _ => none
  | _ => none

/-- The buffer contents of a successful growable-buffer write. -/
def writtenBytes (r : RustOutcome VectorPacketBuffer) : Option (List Nat) :=
  match r with
  | .ok b => some b.buffer
  | _ => none

/-- The scratch-buffer size of each record in turn, along the same
scratch-buffer evolution as the dry-run of `DnsPacket::write`
(`none` when some record fails to encode). -/
def recSizes : VectorPacketBuffer → List DnsRecord → Option (List Nat)
  | _, [] => some []
  | tb, rec :: rest =>
    match rec.write tb with
    | .ok (sz, tb) => (recSizes tb rest).map (sz :: ·)
    | _ => none

/-- How many of the given sizes fit: the longest prefix whose running
total, starting from `size`, never exceeds `max_size` (counting stops
at the first overflow, as the write loop does). -/
def fitCount (max_size : Nat) : Nat → List Nat → Nat
  | _, [] => 0
  | size, sz :: rest =>
    if max_size < size + sz then 0 else fitCount max_size (size + sz) rest + 1

/-- A packet whose header claims 7 answers although its answer list is
empty (e.g. a decoded packet whose records were consumed). -/
def staleCountPacket : DnsPacket :=
  { DnsPacket.new with header := { DnsHeader.new with answers := 7 } }

/-- Three A records whose shared suffix keeps them small. -/
def truncAnswers : List DnsRecord :=
  [ .A "example0.com".toList ⟨127, 0, 0, 1⟩ 3600,
    .A "example1.com".toList ⟨127, 0, 0, 1⟩ 3600,
    .A "example2.com".toList ⟨127, 0, 0, 1⟩ 3600 ]

/-- A zero-count packet carrying `truncAnswers`. -/
def truncPacket : DnsPacket := { DnsPacket.new with answers := truncAnswers }

/-- An A record for `example.com` with TTL 300. -/
def refreshOld : DnsRecord := .A "example.com".toList ⟨192, 168, 0, 1⟩ 300

/-- The same A record (same owner, same address) with TTL 600: equal to
`refreshOld` under the cache's TTL-ignoring record equality. -/
def refreshNew : DnsRecord := .A "example.com".toList ⟨192, 168, 0, 1⟩ 600

/-- An A record stored under a mixed-case owner name. -/
def caseRecord : DnsRecord := .A "CaseSensitive.com".toList ⟨192, 168, 0, 1⟩ 3600

/-- An A record used to exercise the cache TTL window concretely. -/
def windowRecord : DnsRecord := .A "ttl-test.com".toList ⟨192, 168, 0, 1⟩ 300

/-- The NXDOMAIN packet synthesized by a negative cache hit. -/
def nxdomainPacket : DnsPacket :=
  { DnsPacket.new with header := { DnsHeader.new with rescode := .NXDOMAIN } }

/-- A glued referral: no answers, NOERROR, an NS for `com` in the
authority section and its A record in the additional section. -/
def referralResponse : DnsPacket :=
  { DnsPacket.new with
    authorities := [.NS "com".toList "a.gtld-servers.net".toList 172800],
    resources := [.A "a.gtld-servers.net".toList ⟨192, 5, 6, 30⟩ 172800] }

/-- Two NS records for `example.com`; only the second one has glue. -/
def nsGlueSkipPacket : DnsPacket :=
  { DnsPacket.new with
    authorities := [.NS "example.com".toList "ns1.example.com".toList 3600,
                    .NS "example.com".toList "ns2.example.com".toList 3600],
    resources := [.A "ns2.example.com".toList ⟨192, 168, 1, 2⟩ 3600] }

/-- Is the record an A record? -/
def isARecord : DnsRecord → Bool
  | .A .. => true
  | _ => false

/-- Does the record match as a delegation for `qname`: an NS record
whose owner is a (string) suffix of `qname`? -/
def nsMatches (qname : List Char) : DnsRecord → Bool
  | .NS domain _ _ => domain.isSuffixOf qname
  | _ => false

/-- The glue address for `host`: the first A record of the additional
section whose owner equals `host` (the inner search of
`get_resolved_ns`). -/
def glueFor (p : DnsPacket) (host : List Char) : Option (List Char) :=
  p.resources.findSome? fun resource =>
    match resource with
    | .A domain' addr _ => if domain' == host then some addr.toText else none
    | _ => none

/-- The packet returned by a successful `DnsPacket::write` (the source
mutates the packet in place; the model returns it). -/
def writtenPacket (r : RustOutcome (VectorPacketBuffer × DnsPacket)) :
    Option DnsPacket :=
  match r with
  | .ok (_, p) => some p
  | _ => none

/-! ## Helper lemmas -/

open PacketBuffer

theorem readQnameGo_cycle_aux (fuel : Nat) :
    readQnameGo fuel cyclicPointerBufferJumped 0 true [] []
      = (none : Option (RustOutcome (VectorPacketBuffer × List Char))) := by
  induction fuel with
  | zero => rfl
  | succ n ih =>
    show readQnameGo n cyclicPointerBufferJumped 0 true [] [] = none
    exact ih

/-! ## Claims -/

/-- C1: the active `read_qname` has no jump bound at all, so decoding
the two-byte message whose pointer targets its own position never
terminates — for every iteration budget the loop is still running; no
`MalformedName`-style error is ever produced (the error type does not
even have such a variant). -/
theorem read_qname_pointer_cycle_diverges (fuel : Nat) :
    read_qname cyclicPointerBuffer [] fuel
      = (none : Option (RustOutcome (VectorPacketBuffer × List Char))) := by
  cases fuel with
  | zero => rfl
  | succ n =>
    show readQnameGo n cyclicPointerBufferJumped 0 true [] [] = none
    exact readQnameGo_cycle_aux n

/-- C2: writing `ns1.google.com` then `ns2.google.com` into one fresh
growable buffer yields 16 bytes after the first name and exactly 22
bytes in total; decoding twice from position 0 returns the two names in
order, and the 6-byte second encoding is strictly shorter than its
16-byte naive uncompressed form. -/
theorem write_qname_two_names_shared_suffix :
    twoNamesScenario "ns1.google.com".toList "ns2.google.com".toList
      = some (16, 22, "ns1.google.com".toList, "ns2.google.com".toList) ∧
    22 - 16 < uncompressedNameLen "ns2.google.com".toList := by
  exact ⟨by decide, by decide⟩

/-- C5: storing a record equal (same owner, type and payload, TTL
ignored) to one already cached does NOT replace it: `HashSet::insert`
keeps the stored entry, so after a second store at time 100 with TTL
600 the entry still carries timestamp 0 and TTL 300, and a lookup at
time 400 — inside the window the claim promises — misses. -/
theorem cache_store_equal_record_keeps_old_entry :
    ((((Cache.new.store [refreshOld] 0).store [refreshNew] 100).storedEntries
        "example.com".toList .A) = [{ record := refreshOld, timestamp := 0 }]) ∧
    (((Cache.new.store [refreshOld] 0).store [refreshNew] 100).lookup
        "example.com".toList .A 400 = none) := by
  exact ⟨by decide, by decide⟩

/-- C6: the cache never lowercases keys: after storing an A record for
`CaseSensitive.com`, lookups under `casesensitive.com` and
`CASESENSITIVE.COM` miss while the verbatim spelling hits — although
the repository's own `test_case_insensitive_lookup` demands all three
to hit. -/
theorem cache_lookup_case_normalization_missing :
    ((Cache.new.store [caseRecord] 0).lookup "casesensitive.com".toList .A 1 = none) ∧
    ((Cache.new.store [caseRecord] 0).lookup "CASESENSITIVE.COM".toList .A 1 = none) ∧
    ((Cache.new.store [caseRecord] 0).lookup "CaseSensitive.com".toList .A 1
      = some { DnsPacket.new with answers := [caseRecord] }) := by
  exact ⟨by decide, by decide, by decide⟩

/-- C7: the query loop of `RecursiveDnsResolver::perform` has no
iteration guard: against an upstream that always answers with a glued
referral, the loop keeps chasing the delegation for every iteration
budget, from any starting nameserver and cache state. -/
theorem perform_referral_loop_unbounded (fuel : Nat) :
    ∀ (ns : List Char) (cache : Cache),
      performLoop (fun _ => referralResponse) (fun _ => none)
        "example.com".toList .A 0 fuel ns cache = none := by
  induction fuel with
  | zero => intro ns cache; rfl
  | succ n ih =>
    intro ns cache
    exact ih _ _

/-- C8: `write_qname` never checks the 63-octet label bound: a 64-`a`
label is accepted and written with raw length byte 64 (`0x40`, which a
conforming decoder reads as a compression-pointer tag), not rejected
with any error. -/
theorem write_qname_accepts_64_byte_label :
    writtenBytes (write_qname VectorPacketBuffer.new (List.replicate 64 'a'))
      = some (64 :: List.replicate 64 97 ++ [0]) := by decide

/-- C9: `BytePacketBuffer::set` has no bounds check, so position 512
panics (array index out of bounds) instead of returning `EndOfBuffer`;
moreover `get_range` rejects `start + len = 512` although every touched
position (508..511) is strictly below 512. -/
theorem bytePacketBuffer_set_out_of_range_panics :
    PacketBuffer.set BytePacketBuffer.new 512 0 = RustOutcome.panic ∧
    PacketBuffer.get_range BytePacketBuffer.new 508 4
      = RustOutcome.err BufferError.EndOfBuffer := by
  exact ⟨rfl, rfl⟩

/-! ## C4 helper lemmas -/

theorem cache_lookup_only_valid
    (c : Cache) (qname : List Char) (qtype : QueryType) (now : Nat)
    (qr : DnsPacket) (hl : c.lookup qname qtype now = some qr)
    (hpos : qr.header.rescode = .NOERROR) :
    (∀ r ∈ qr.answers,
      ∃ e ∈ c.storedEntries qname qtype, e.record = r ∧ e.is_valid now = true) ∧
    (∀ r ∈ qr.authorities,
      ∃ e ∈ c.storedEntries qname .NS, e.record = r ∧ e.is_valid now = true) := by
  have key : ∀ (qt : QueryType) (r : DnsRecord),
      r ∈ c.fill_queryresult qname qt now →
      ∃ e ∈ c.storedEntries qname qt, e.record = r ∧ e.is_valid now = true := by
    intro qt r hr
    unfold Cache.fill_queryresult at hr
    unfold Cache.storedEntries
    cases hde : c.domain_entries.lookup qname with
    | none => simp only [hde] at hr; simp at hr
    | some de =>
      simp only [hde] at hr ⊢
      unfold DomainEntry.fill_query_result at hr
      cases hrt : de.record_types.lookup qt with
      | none => simp only [hrt] at hr; simp at hr
      | some rs =>
        cases rs with
        | NoRecords q ttl ts => simp only [hrt] at hr; simp at hr
        | Records q records =>
          simp only [hrt] at hr ⊢
          simp only [List.mem_map, List.mem_filter] at hr
          obtain ⟨e, ⟨he, hv⟩, hrec⟩ := hr
          exact ⟨e, he, hrec, hv⟩
  unfold Cache.lookup at hl
  cases hstate : c.get_cache_state qname qtype now with
  | PositiveCache =>
    rw [hstate] at hl
    simp only [Option.some.injEq] at hl
    subst hl
    exact ⟨fun r hr => key qtype r hr, fun r hr => key .NS r hr⟩
  | NegativeCache =>
    rw [hstate] at hl
    simp only [Option.some.injEq] at hl
    subst hl
    simp [DnsPacket.new, DnsHeader.new] at hpos
  | NotCached => rw [hstate] at hl; cases hl

theorem cache_store_singleton_entries
    (r : DnsRecord) (d : List Char) (t0 : Nat) (hd : r.get_domain = some d) :
    (Cache.new.store [r] t0).domain_entries
      = [(d, { record_types := [(r.get_querytype, .Records r.get_querytype [⟨r, t0⟩])],
               hits := 0, updates := 1 })] := by
  simp [Cache.store, hd, Cache.new, Cache.updateEntry, List.lookup,
    domainMapInsert, DomainEntry.store_record, DomainEntry.new, typeMapInsert]

theorem cache_store_lookup_window
    (r : DnsRecord) (d : List Char) (T t0 t : Nat)
    (hd : r.get_domain = some d) (hT : r.get_ttl = T) :
    (t < t0 + T →
      ∃ qr, (Cache.new.store [r] t0).lookup d r.get_querytype t = some qr ∧
        qr.answers = [r] ∧ qr.header.rescode = .NOERROR) ∧
    (t0 + T ≤ t →
      (Cache.new.store [r] t0).lookup d r.get_querytype t = none) := by
  have hstore := cache_store_singleton_entries r d t0 hd
  constructor
  · intro ht
    have hvalid : RecordEntry.is_valid ⟨r, t0⟩ t = true := by
      simp [RecordEntry.is_valid, hT]; omega
    have hstate : (Cache.new.store [r] t0).get_cache_state d r.get_querytype t
        = .PositiveCache := by
      simp [Cache.get_cache_state, hstore, DomainEntry.get_cache_state,
        List.lookup, hvalid]
    have hfill : (Cache.new.store [r] t0).fill_queryresult d r.get_querytype t
        = [r] := by
      simp [Cache.fill_queryresult, hstore, DomainEntry.fill_query_result,
        List.lookup, hvalid]
    refine ⟨{ DnsPacket.new with
        answers := [r],
        authorities := (Cache.new.store [r] t0).fill_queryresult d .NS t },
      ?_, rfl, rfl⟩
    unfold Cache.lookup
    rw [hstate, hfill]
  · intro ht
    have hvalid : RecordEntry.is_valid ⟨r, t0⟩ t = false := by
      simp [RecordEntry.is_valid, hT]; omega
    have hstate : (Cache.new.store [r] t0).get_cache_state d r.get_querytype t
        = .NotCached := by
      simp [Cache.get_cache_state, hstore, DomainEntry.get_cache_state,
        List.lookup, hvalid]
    unfold Cache.lookup
    rw [hstate]

theorem cache_negative_window (qname : List Char) (qtype : QueryType)
    (T t0 t : Nat) (ht : t < t0 + T) :
    (Cache.new.store_nxdomain qname qtype T t0).lookup qname qtype t
      = some nxdomainPacket := by
  have hstore : (Cache.new.store_nxdomain qname qtype T t0).domain_entries
      = [(qname, { record_types := [(qtype, .NoRecords qtype T t0)],
                   hits := 0, updates := 1 })] := by
    simp [Cache.store_nxdomain, Cache.new, Cache.updateEntry, List.lookup,
      domainMapInsert, DomainEntry.store_nxdomain, DomainEntry.new, typeMapInsert]
  have hstate : (Cache.new.store_nxdomain qname qtype T t0).get_cache_state
      qname qtype t = .NegativeCache := by
    simp [Cache.get_cache_state, hstore, DomainEntry.get_cache_state, List.lookup]
    omega
  unfold Cache.lookup
  rw [hstate]
  rfl

/-- C4: every record of a positive cache response comes from a stored
entry that satisfies the is-valid predicate (timestamp + TTL > now) at
the lookup instant; after storing a record with TTL `T` at `t0` in a
fresh cache, looking its owner and type up returns exactly that record
at every `t < t0 + T` and misses at every `t ≥ t0 + T`; a still-valid
negative entry yields an NXDOMAIN packet with empty sections. -/
theorem cache_lookup_ttl_validity :
    (∀ (c : Cache) (qname : List Char) (qtype : QueryType) (now : Nat)
        (qr : DnsPacket), c.lookup qname qtype now = some qr →
        qr.header.rescode = .NOERROR →
        (∀ r ∈ qr.answers,
          ∃ e ∈ c.storedEntries qname qtype, e.record = r ∧ e.is_valid now = true) ∧
        (∀ r ∈ qr.authorities,
          ∃ e ∈ c.storedEntries qname .NS, e.record = r ∧ e.is_valid now = true)) ∧
    (∀ (r : DnsRecord) (d : List Char) (T t0 t : Nat),
        r.get_domain = some d → r.get_ttl = T →
        (t < t0 + T →
          ∃ qr, (Cache.new.store [r] t0).lookup d r.get_querytype t = some qr ∧
            qr.answers = [r] ∧ qr.header.rescode = .NOERROR) ∧
        (t0 + T ≤ t →
          (Cache.new.store [r] t0).lookup d r.get_querytype t = none)) ∧
    (∀ (qname : List Char) (qtype : QueryType) (T t0 t : Nat), t < t0 + T →
        (Cache.new.store_nxdomain qname qtype T t0).lookup qname qtype t
          = some nxdomainPacket) :=
  ⟨cache_lookup_only_valid, cache_store_lookup_window, cache_negative_window⟩


/-- C4 witness: the TTL-window theorem applied to `windowRecord`
(TTL 300, stored at 0) at times 100 and 300, to a negative entry, and
the validity statement applied to the resulting concrete cache. -/
theorem cache_lookup_ttl_validity_witness :
    (∃ qr, (Cache.new.store [windowRecord] 0).lookup "ttl-test.com".toList
        windowRecord.get_querytype 100 = some qr ∧
        qr.answers = [windowRecord] ∧ qr.header.rescode = .NOERROR) ∧
    ((Cache.new.store [windowRecord] 0).lookup "ttl-test.com".toList
        windowRecord.get_querytype 300 = none) ∧
    ((Cache.new.store_nxdomain "x.test".toList .A 1 0).lookup "x.test".toList .A 0
      = some nxdomainPacket) ∧
    (∀ r ∈ ({ DnsPacket.new with answers := [windowRecord] } : DnsPacket).answers,
      ∃ e ∈ (Cache.new.store [windowRecord] 0).storedEntries "ttl-test.com".toList .A,
        e.record = r ∧ e.is_valid 100 = true) :=
  ⟨(cache_lookup_ttl_validity.2.1 windowRecord "ttl-test.com".toList 300 0 100
      (by decide) (by decide)).1 (by decide),
   (cache_lookup_ttl_validity.2.1 windowRecord "ttl-test.com".toList 300 0 300
      (by decide) (by decide)).2 (by decide),
   cache_lookup_ttl_validity.2.2 "x.test".toList .A 1 0 0 (by decide),
   (cache_lookup_ttl_validity.1 (Cache.new.store [windowRecord] 0)
      "ttl-test.com".toList .A 100 { DnsPacket.new with answers := [windowRecord] }
      (by decide) (by decide)).1⟩

/-! ## C10 helper lemmas -/

theorem findSome?_eq_some_iff {α γ : Type} (f : α → Option γ) (l : List α) (y : γ) :
    l.findSome? f = some y ↔
      ∃ l1 x l2, l = l1 ++ x :: l2 ∧ f x = some y ∧ ∀ z ∈ l1, f z = none := by
  induction l with
  | nil =>
    simp only [List.findSome?_nil]
    constructor
    · intro h; cases h
    · rintro ⟨l1, x, l2, heq, -, -⟩; cases l1 <;> cases heq
  | cons a as ih =>
    rw [List.findSome?_cons]
    cases hfa : f a with
    | some v =>
      constructor
      · intro h
        exact ⟨[], a, as, rfl, by rw [hfa]; exact h, by intro z hz; cases hz⟩
      · rintro ⟨l1, x, l2, heq, hfx, hnone⟩
        cases l1 with
        | nil =>
          cases heq
          rw [hfa] at hfx
          exact hfx
        | cons b bs =>
          rw [List.cons_append] at heq
          cases heq
          have := hnone a (by exact List.mem_cons_self a bs)
          rw [hfa] at this
          cases this
    | none =>
      rw [ih]
      constructor
      · rintro ⟨l1, x, l2, heq, hfx, hnone⟩
        refine ⟨a :: l1, x, l2, by rw [heq, List.cons_append], hfx, ?_⟩
        intro z hz
        rcases List.mem_cons.mp hz with hz | hz
        · rw [hz, hfa]
        · exact hnone z hz
      · rintro ⟨l1, x, l2, heq, hfx, hnone⟩
        cases l1 with
        | nil =>
          cases heq
          rw [hfa] at hfx
          cases hfx
        | cons b bs =>
          rw [List.cons_append] at heq
          injection heq with hab htail
          subst hab
          exact ⟨bs, x, l2, htail, hfx,
            fun z hz => hnone z (List.mem_cons_of_mem _ hz)⟩

theorem get_random_a_first_match (p : DnsPacket) (s : List Char) :
    p.get_random_a = some s ↔
      ∃ l1 dom addr ttl l2, p.answers = l1 ++ DnsRecord.A dom addr ttl :: l2 ∧
        s = addr.toText ∧ ∀ r ∈ l1, isARecord r = false := by
  unfold DnsPacket.get_random_a
  rw [findSome?_eq_some_iff]
  constructor
  · rintro ⟨l1, x, l2, heq, hfx, hnone⟩
    cases x <;> simp only [Option.some.injEq] at hfx
    case A dom addr ttl =>
      refine ⟨l1, dom, addr, ttl, l2, heq, hfx.symm, ?_⟩
      intro r hr
      have := hnone r hr
      cases r <;> simp_all [isARecord]
    all_goals cases hfx
  · rintro ⟨l1, dom, addr, ttl, l2, heq, hs, hnone⟩
    refine ⟨l1, .A dom addr ttl, l2, heq, by rw [hs], ?_⟩
    intro z hz
    have := hnone z hz
    cases z <;> simp_all [isARecord]

theorem get_unresolved_ns_first_match (p : DnsPacket) (q h : List Char) :
    p.get_unresolved_ns q = some h ↔
      ∃ l1 dom ttl l2, p.authorities = l1 ++ DnsRecord.NS dom h ttl :: l2 ∧
        dom.isSuffixOf q = true ∧ ∀ r ∈ l1, nsMatches q r = false := by
  unfold DnsPacket.get_unresolved_ns
  rw [findSome?_eq_some_iff]
  constructor
  · rintro ⟨l1, x, l2, heq, hfx, hnone⟩
    cases x <;> simp only at hfx
    case NS dom host ttl =>
      cases hsuf : dom.isSuffixOf q with
      | false => rw [if_neg (by simp [hsuf])] at hfx; cases hfx
      | true =>
        rw [if_pos hsuf] at hfx
        injection hfx with hfx
        subst hfx
        refine ⟨l1, dom, ttl, l2, heq, hsuf, ?_⟩
        intro r hr
        have hfr := hnone r hr
        cases r
        case NS dom2 host2 ttl2 =>
          have hfr2 : (if dom2.isSuffixOf q = true then some host2 else none)
              = (none : Option (List Char)) := hfr
          cases hsuf2 : dom2.isSuffixOf q with
          | false => simp [nsMatches, hsuf2]
          | true => rw [if_pos hsuf2] at hfr2; cases hfr2
        all_goals rfl
    all_goals cases hfx
  · rintro ⟨l1, dom, ttl, l2, heq, hsuf, hnone⟩
    refine ⟨l1, .NS dom h ttl, l2, heq,
      by show (if dom.isSuffixOf q = true then some h else none) = some h
         rw [if_pos hsuf], ?_⟩
    intro z hz
    have hm := hnone z hz
    cases z
    case NS dom2 host2 ttl2 =>
      have hm2 : dom2.isSuffixOf q = false := hm
      show (if dom2.isSuffixOf q = true then some host2 else none) = none
      rw [hm2]
      rfl
    all_goals rfl

theorem get_resolved_ns_first_glued_match (p : DnsPacket) (q s : List Char) :
    p.get_resolved_ns q = some s ↔
      ∃ l1 dom host ttl l2,
        p.authorities = l1 ++ DnsRecord.NS dom host ttl :: l2 ∧
        dom.isSuffixOf q = true ∧ glueFor p host = some s ∧
        ∀ r ∈ l1, ∀ dom' host' ttl', r = DnsRecord.NS dom' host' ttl' →
          dom'.isSuffixOf q = true → glueFor p host' = none := by
  unfold DnsPacket.get_resolved_ns
  rw [findSome?_eq_some_iff]
  constructor
  · rintro ⟨l1, x, l2, heq, hfx, hnone⟩
    cases x <;> simp only at hfx
    case NS dom host ttl =>
      have hfx2 : (if dom.isSuffixOf q = true then glueFor p host else none)
          = some s := hfx
      cases hsuf : dom.isSuffixOf q with
      | false => rw [if_neg (by simp [hsuf])] at hfx2; cases hfx2
      | true =>
        rw [if_pos hsuf] at hfx2
        refine ⟨l1, dom, host, ttl, l2, heq, hsuf, hfx2, ?_⟩
        rintro r hr dom2 host2 ttl2 rfl hsuf2
        have hfr : (if dom2.isSuffixOf q = true then glueFor p host2 else none)
            = (none : Option (List Char)) := hnone _ hr
        rw [if_pos hsuf2] at hfr
        exact hfr
    all_goals cases hfx
  · rintro ⟨l1, dom, host, ttl, l2, heq, hsuf, hglue, hnone⟩
    refine ⟨l1, .NS dom host ttl, l2, heq,
      by show (if dom.isSuffixOf q = true then glueFor p host else none) = some s
         rw [if_pos hsuf]; exact hglue, ?_⟩
    intro z hz
    cases hzz : z
    case NS dom2 host2 ttl2 =>
      show (if dom2.isSuffixOf q = true then glueFor p host2 else none) = none
      cases hsuf2 : dom2.isSuffixOf q with
      | false => rfl
      | true =>
        rw [if_pos rfl]
        exact hnone z hz dom2 host2 ttl2 hzz hsuf2
    all_goals rfl

/-- C10 counterexample: in `nsGlueSkipPacket` the first NS record of
the authority section matches the query name `example.com` but has no
glue, yet `get_resolved_ns` returns `192.168.1.2` — the glue address of
the SECOND matching NS — so its result is not derived from the first
matching NS record, contrary to the claim. -/
theorem get_resolved_ns_not_first_matching_ns :
    nsGlueSkipPacket.authorities.head?
      = some (.NS "example.com".toList "ns1.example.com".toList 3600) ∧
    nsMatches "example.com".toList
      (.NS "example.com".toList "ns1.example.com".toList 3600) = true ∧
    glueFor nsGlueSkipPacket "ns1.example.com".toList = none ∧
    nsGlueSkipPacket.get_resolved_ns "example.com".toList
      = some "192.168.1.2".toList := by
  exact ⟨rfl, by decide, by decide, by decide⟩

/-- C10 amended: all three selectors are deterministic first-match
scans: `get_random_a` returns exactly the address of the first A record
of the answers section; `get_unresolved_ns` the host of the first NS of
the authority section whose owner is a string suffix of the query name;
`get_resolved_ns` the glue address of the first such NS that also has
an A record in the additional section — NS entries without glue are
skipped.  Determinism is immediate: the three are pure functions of the
packet and the query name. -/
theorem selection_is_deterministic_first_match :
    (∀ (p : DnsPacket) (s : List Char),
      p.get_random_a = some s ↔
        ∃ l1 dom addr ttl l2, p.answers = l1 ++ DnsRecord.A dom addr ttl :: l2 ∧
          s = addr.toText ∧ ∀ r ∈ l1, isARecord r = false) ∧
    (∀ (p : DnsPacket) (q h : List Char),
      p.get_unresolved_ns q = some h ↔
        ∃ l1 dom ttl l2, p.authorities = l1 ++ DnsRecord.NS dom h ttl :: l2 ∧
          dom.isSuffixOf q = true ∧ ∀ r ∈ l1, nsMatches q r = false) ∧
    (∀ (p : DnsPacket) (q s : List Char),
      p.get_resolved_ns q = some s ↔
        ∃ l1 dom host ttl l2,
          p.authorities = l1 ++ DnsRecord.NS dom host ttl :: l2 ∧
          dom.isSuffixOf q = true ∧ glueFor p host = some s ∧
          ∀ r ∈ l1, ∀ dom' host' ttl', r = DnsRecord.NS dom' host' ttl' →
            dom'.isSuffixOf q = true → glueFor p host' = none) :=
  ⟨get_random_a_first_match, get_unresolved_ns_first_match,
   get_resolved_ns_first_glued_match⟩

/-! ## C3 helper lemmas -/

theorem recordLoop_fit (max_size alen aulen : Nat) :
    ∀ (recs : List DnsRecord) (size i : Nat) (tb : VectorPacketBuffer)
      (hdr : DnsHeader) (sizes : List Nat),
      hdr.answers < 65536 → hdr.authoritative_entries < 65536 →
      hdr.resource_entries < 65536 →
      recSizes tb recs = some sizes →
      ∀ (out : Nat × VectorPacketBuffer × DnsHeader × Nat),
      recordLoop max_size alen aulen recs size i tb hdr i = .ok out →
      i ≤ out.2.2.2 ∧
      out.2.2.2 = i + fitCount max_size size sizes ∧
      out.2.2.1.answers
        = (hdr.answers + (min out.2.2.2 alen - min i alen)) % 65536 ∧
      out.2.2.1.authoritative_entries
        = (hdr.authoritative_entries +
            ((min out.2.2.2 (alen + aulen) - min out.2.2.2 alen) -
              (min i (alen + aulen) - min i alen))) % 65536 ∧
      out.2.2.1.resource_entries
        = (hdr.resource_entries +
            ((out.2.2.2 - min out.2.2.2 (alen + aulen)) -
              (i - min i (alen + aulen)))) % 65536 ∧
      out.2.2.1.truncated_message
        = (hdr.truncated_message || decide (out.2.2.2 - i < recs.length)) := by
  intro recs
  induction recs with
  | nil =>
    intro size i tb hdr sizes hb1 hb2 hb3 hs out hl
    simp only [recSizes] at hs
    injection hs with hs
    subst hs
    simp only [recordLoop] at hl
    injection hl with hl
    subst hl
    refine ⟨Nat.le_refl _, by simp [fitCount], ?_, ?_, ?_, ?_⟩
    · dsimp only; omega
    · dsimp only; omega
    · dsimp only; omega
    · simp [fitCount, Nat.sub_self]
  | cons rec rest ih =>
    intro size i tb hdr sizes hb1 hb2 hb3 hs out hl
    simp only [recSizes] at hs
    simp only [recordLoop] at hl
    cases hw : rec.write tb with
    | err e => simp only [hw] at hs; simp at hs
    | panic => simp only [hw] at hs; simp at hs
    | ok szTb =>
      obtain ⟨sz, tb'⟩ := szTb
      simp only [hw] at hs hl
      cases hrs : recSizes tb' rest with
      | none => rw [hrs] at hs; simp at hs
      | some restSizes =>
        rw [hrs] at hs
        simp only [Option.map_some'] at hs
        injection hs with hs
        subst hs
        by_cases hov : max_size < size + sz
        · rw [if_pos hov] at hl
          injection hl with hl
          subst hl
          refine ⟨Nat.le_refl _, ?_, ?_, ?_, ?_, ?_⟩
          · simp [fitCount, hov]
          · dsimp only; omega
          · dsimp only; omega
          · dsimp only; omega
          · simp [List.length_cons]
        · rw [if_neg hov] at hl
          have hfit : fitCount max_size size (sz :: restSizes)
              = fitCount max_size (size + sz) restSizes + 1 := by
            simp [fitCount, hov]
          have main : ∀ hdr1 : DnsHeader,
              recordLoop max_size alen aulen rest (size + sz) (i + 1) tb' hdr1
                (i + 1) = .ok out →
              hdr1.answers
                = (if i < alen then (hdr.answers + 1) % 65536 else hdr.answers) →
              hdr1.authoritative_entries
                = (if alen ≤ i ∧ i < alen + aulen then
                    (hdr.authoritative_entries + 1) % 65536
                  else hdr.authoritative_entries) →
              hdr1.resource_entries
                = (if alen + aulen ≤ i then (hdr.resource_entries + 1) % 65536
                  else hdr.resource_entries) →
              hdr1.truncated_message = hdr.truncated_message →
              i ≤ out.2.2.2 ∧
              out.2.2.2 = i + fitCount max_size size (sz :: restSizes) ∧
              out.2.2.1.answers
                = (hdr.answers + (min out.2.2.2 alen - min i alen)) % 65536 ∧
              out.2.2.1.authoritative_entries
                = (hdr.authoritative_entries +
                    ((min out.2.2.2 (alen + aulen) - min out.2.2.2 alen) -
                      (min i (alen + aulen) - min i alen))) % 65536 ∧
              out.2.2.1.resource_entries
                = (hdr.resource_entries +
                    ((out.2.2.2 - min out.2.2.2 (alen + aulen)) -
                      (i - min i (alen + aulen)))) % 65536 ∧
              out.2.2.1.truncated_message
                = (hdr.truncated_message ||
                    decide (out.2.2.2 - i < (rec :: rest).length)) := by
            intro hdr1 hl1 e1 e2 e3 e4
            have hb1' : hdr1.answers < 65536 := by
              rw [e1]; split_ifs <;> omega
            have hb2' : hdr1.authoritative_entries < 65536 := by
              rw [e2]; split_ifs <;> omega
            have hb3' : hdr1.resource_entries < 65536 := by
              rw [e3]; split_ifs <;> omega
            obtain ⟨hle, hrc, hans, hauth, hres, htr⟩ :=
              ih (size + sz) (i + 1) tb' hdr1 restSizes hb1' hb2' hb3' hrs out hl1
            have hdec : decide (out.2.2.2 - (i + 1) < rest.length)
                = decide (out.2.2.2 - i < (rec :: rest).length) := by
              rw [decide_eq_decide]
              simp only [List.length_cons]
              omega
            refine ⟨by omega, by omega, ?_, ?_, ?_, ?_⟩
            · rw [hans, e1]
              split_ifs with hc
              · rw [Nat.mod_add_mod]; congr 1; omega
              · congr 1; omega
            · rw [hauth, e2]
              split_ifs with hc
              · rw [Nat.mod_add_mod]; congr 1; omega
              · congr 1; omega
            · rw [hres, e3]
              split_ifs with hc
              · rw [Nat.mod_add_mod]; congr 1; omega
              · congr 1; omega
            · rw [htr, e4, hdec]
          by_cases h1 : i < alen
          · rw [if_pos h1] at hl
            exact main _ hl (by dsimp only; split_ifs <;> omega)
              (by dsimp only; split_ifs <;> omega)
              (by dsimp only; split_ifs <;> omega) rfl
          · rw [if_neg h1] at hl
            by_cases h2 : i < alen + aulen
            · rw [if_pos h2] at hl
              exact main _ hl (by dsimp only; split_ifs <;> omega)
                (by dsimp only; split_ifs <;> omega)
                (by dsimp only; split_ifs <;> omega) rfl
            · rw [if_neg h2] at hl
              exact main _ hl (by dsimp only; split_ifs <;> omega)
                (by dsimp only; split_ifs <;> omega)
                (by dsimp only; split_ifs <;> omega) rfl

theorem RustOutcome.bind_ok {α γ : Type} (a : α) (f : α → RustOutcome γ) :
    (RustOutcome.ok a : RustOutcome α) >>= f = f a := rfl

theorem RustOutcome.bind_err {α γ : Type} (e : BufferError) (f : α → RustOutcome γ) :
    (RustOutcome.err e : RustOutcome α) >>= f = .err e := rfl

theorem RustOutcome.bind_panic {α γ : Type} (f : α → RustOutcome γ) :
    (RustOutcome.panic : RustOutcome α) >>= f = .panic := rfl

/-- C3 amended: for every packet whose header record counts start at
zero (the source `+=`s the counts instead of setting them), a
successful `DnsPacket::write` with budget `max_size` emits the header,
all questions, and then exactly the longest prefix of answers ++
authorities ++ additionals whose cumulative dry-run size stays within
`max_size`; the TC flag is set exactly when a record was cut off, and
the header's answers / authoritative / resource counts equal the
number of records emitted into each section reduced mod `2^16` (the
`u16` counters wrap, so the counts are exact whenever a section emits
fewer than 65536 records). -/
theorem dnsPacket_write_budget {β : Type} [PacketBuffer β]
    (p : DnsPacket) (b : β) (max_size : Nat) (b' : β) (p' : DnsPacket)
    (size0 : Nat) (tb0 : VectorPacketBuffer) (sizes : List Nat)
    (h0 : p.header.answers = 0) (h1 : p.header.authoritative_entries = 0)
    (h2 : p.header.resource_entries = 0)
    (hq : questionsPhase p.questions 12 VectorPacketBuffer.new = .ok (size0, tb0))
    (hs : recSizes tb0 (p.answers ++ p.authorities ++ p.resources) = some sizes)
    (hw : p.write b max_size = .ok (b', p')) :
    p'.header.answers
      = (min (fitCount max_size size0 sizes) p.answers.length) % 65536 ∧
    p'.header.authoritative_entries
      = (min (fitCount max_size size0 sizes)
            (p.answers.length + p.authorities.length)
          - min (fitCount max_size size0 sizes) p.answers.length) % 65536 ∧
    p'.header.resource_entries
      = (fitCount max_size size0 sizes
          - min (fitCount max_size size0 sizes)
              (p.answers.length + p.authorities.length)) % 65536 ∧
    p'.header.truncated_message
      = (p.header.truncated_message ||
          decide (fitCount max_size size0 sizes
            < (p.answers ++ p.authorities ++ p.resources).length)) ∧
    p'.header.questions = p.questions.length % 65536 ∧
    (∃ bh bq, p'.header.write b = .ok bh ∧
      writeQuestionsOut p.questions bh = .ok bq ∧
      writeRecordsOut
        ((p.answers ++ p.authorities ++ p.resources).take
          (fitCount max_size size0 sizes)) bq = .ok b') := by
  unfold DnsPacket.write at hw
  simp only [DnsHeader.binary_len] at hw
  rw [hq] at hw
  simp only [RustOutcome.bind_ok] at hw
  cases hrl : recordLoop max_size p.answers.length p.authorities.length
      (p.answers ++ p.authorities ++ p.resources) size0 0 tb0 p.header 0 with
  | err e => rw [hrl] at hw; simp only [RustOutcome.bind_err] at hw; cases hw
  | panic => rw [hrl] at hw; simp only [RustOutcome.bind_panic] at hw; cases hw
  | ok out =>
    obtain ⟨s, tbx, hdr, rc⟩ := out
    rw [hrl] at hw
    simp only [RustOutcome.bind_ok] at hw
    obtain ⟨hle, hrc, hans, hauth, hres, htr⟩ :=
      recordLoop_fit max_size p.answers.length p.authorities.length
        (p.answers ++ p.authorities ++ p.resources) size0 0 tb0 p.header sizes
        (by omega) (by omega) (by omega) hs (s, tbx, hdr, rc) hrl
    simp only at hle hrc hans hauth hres htr
    cases hhw : DnsHeader.write
        { hdr with questions := p.questions.length % 65536 } b with
    | err e => rw [hhw] at hw; simp only [RustOutcome.bind_err] at hw; cases hw
    | panic => rw [hhw] at hw; simp only [RustOutcome.bind_panic] at hw; cases hw
    | ok bh =>
      rw [hhw] at hw
      simp only [RustOutcome.bind_ok] at hw
      cases hqw : writeQuestionsOut p.questions bh with
      | err e => rw [hqw] at hw; simp only [RustOutcome.bind_err] at hw; cases hw
      | panic => rw [hqw] at hw; simp only [RustOutcome.bind_panic] at hw; cases hw
      | ok bq =>
        rw [hqw] at hw
        simp only [RustOutcome.bind_ok] at hw
        cases hrw : writeRecordsOut
            ((p.answers ++ p.authorities ++ p.resources).take rc) bq with
        | err e => rw [hrw] at hw; simp only [RustOutcome.bind_err] at hw; cases hw
        | panic => rw [hrw] at hw; simp only [RustOutcome.bind_panic] at hw; cases hw
        | ok bf =>
          rw [hrw] at hw
          simp only [RustOutcome.bind_ok] at hw
          have hw' : (bf, { p with header :=
              { hdr with questions := p.questions.length % 65536 } })
              = (b', p') := by
            injection hw
          injection hw' with hwb hwp
          subst hwb
          subst hwp
          have hrcfit : rc = fitCount max_size size0 sizes := by omega
          subst hrcfit
          refine ⟨?_, ?_, ?_, ?_, rfl, ⟨bh, bq, hhw, hqw, hrw⟩⟩
          · dsimp only; omega
          · dsimp only; omega
          · dsimp only; omega
          · dsimp only
            rw [htr, Nat.sub_zero]

/-- C3 counterexample: `DnsPacket::write` only increments the header
counts, so a packet whose header already claims 7 answers but has no
answer records still reports 7 answers after a successful write that
emitted zero records — the count does not equal the number of records
emitted. -/
theorem dnsPacket_write_stale_header_counts :
    staleCountPacket.answers = [] ∧
    (writtenPacket (staleCountPacket.write VectorPacketBuffer.new 512)).map
        (fun q => q.header.answers) = some 7 := by
  exact ⟨rfl, by decide⟩

/-- C3 witness: the budget theorem applied to `truncPacket` (three A
records of sizes 28, 25, 25) with `max_size` 60: exactly one record
fits, TC is set, and the counts are (1, 0, 0). -/
theorem dnsPacket_write_budget_witness :
    ∃ (b' : VectorPacketBuffer) (p' : DnsPacket),
      truncPacket.write VectorPacketBuffer.new 60 = .ok (b', p') ∧
      p'.header.answers = 1 ∧
      p'.header.authoritative_entries = 0 ∧
      p'.header.resource_entries = 0 ∧
      p'.header.truncated_message = true ∧
      p'.header.questions = 0 := by
  have hsome : (writtenPacket (truncPacket.write VectorPacketBuffer.new 60)).isSome
      = true := by decide
  cases hwx : truncPacket.write VectorPacketBuffer.new 60 with
  | err e => rw [hwx] at hsome; simp [writtenPacket] at hsome
  | panic => rw [hwx] at hsome; simp [writtenPacket] at hsome
  | ok pair =>
    obtain ⟨b2, p2⟩ := pair
    obtain ⟨ha, hu, hr, ht, hquest, -⟩ :=
      dnsPacket_write_budget truncPacket VectorPacketBuffer.new 60 b2 p2
        12 VectorPacketBuffer.new [28, 25, 25] rfl rfl rfl (by decide) (by decide) hwx
    refine ⟨b2, p2, rfl, ?_, ?_, ?_, ?_, ?_⟩
    · rw [ha]; decide
    · rw [hu]; decide
    · rw [hr]; decide
    · rw [ht]; decide
    · rw [hquest]; decide
